import Mathlib

/-!
Verification of `pyanaconda/image.py` and of the timezone/NTP configuration
tasks of the anaconda installer, against the repository's natural-language
specification.  The Python source is shallowly embedded: each function of
`image.py` becomes a Lean function over an explicit model of the filesystem
and environment facts it consults, and the stacked mounts at the fixed
scratch mount point `/mnt/install/cdimage` are threaded as a natural number.
-/

/-- A candidate file considered by `findFirstIsoImage`, described by the
environment facts the scan consults about it:
`isIsoImage` is `isys.isIsoImage(what)`; `mountOk` says whether
`blivet.util.mount` succeeds (otherwise it raises `OSError`);
`discinfoReadable` is `os.access(discinfo_path, os.R_OK)`;
`discinfoArch` is the architecture parsed from `.discinfo`, or `none`
when `DiscInfo.load` raises; `repodataValid` is `_check_repodata`;
`sizeOk` says the file size is a multiple of 2048 bytes. -/
structure Candidate where
  name : String
  isIsoImage : Bool
  mountOk : Bool
  discinfoReadable : Bool
  discinfoArch : Option String
  repodataValid : Bool
  sizeOk : Bool
deriving DecidableEq, Repr

/-- Python's `str.endswith`, computed on the character lists of the two
strings. -/
def strEndsWith (s t : String) : Bool :=
  t.data.isSuffixOf s.data

/-- Python's `str.strip()`: whitespace removed from both ends, computed
on the character list of the string. -/
def pyStrip (s : String) : String :=
  ⟨((s.data.dropWhile Char.isWhitespace).reverse.dropWhile Char.isWhitespace).reverse⟩

/-- Outcome of `findFirstIsoImage`: a returned basename, a `None` return,
a propagated `InvalidImageSizeError` (the error policy answered
`ERROR_RAISE`), or a propagated `OSError` from `os.listdir`. -/
inductive ScanOutcome
  | found : String → ScanOutcome
  | notFound : ScanOutcome
  | raisedInvalidSize : String → ScanOutcome
  | raisedOSError : ScanOutcome
deriving DecidableEq, Repr

/-- The `for fn in files` loop of `findFirstIsoImage` (image.py lines
60-111).  `arch` is the module-level `_arch`; `raiseOnSize` says whether
`errorHandler.cb(InvalidImageSizeError)` returns `ERROR_RAISE`; `mounts`
counts the mounts stacked at the scratch mount point.  Each branch mirrors
one `continue`/`return`/`raise` of the source, with `mounted - 1` standing
for `blivet.util.umount(mount_path)`.  Note the `.discinfo` parse-failure
branch (source lines 79-84) continues WITHOUT unmounting. -/
def scanLoop (arch : String) (raiseOnSize : Bool) : List Candidate → Nat → ScanOutcome × Nat
  | [], mounts => (.notFound, mounts)
  | c :: rest, mounts =>
    if !c.isIsoImage then
      scanLoop arch raiseOnSize rest mounts
    else if !c.mountOk then
      scanLoop arch raiseOnSize rest mounts
    else
      let mounted := mounts + 1
      if !c.discinfoReadable then
        scanLoop arch raiseOnSize rest (mounted - 1)
      else
        match c.discinfoArch with
        | none =>
          scanLoop arch raiseOnSize rest mounted
        | some discArch =>
          if discArch != arch then
            scanLoop arch raiseOnSize rest (mounted - 1)
          else if !c.repodataValid then
            scanLoop arch raiseOnSize rest (mounted - 1)
          else if !c.sizeOk && raiseOnSize then
            (.raisedInvalidSize c.name, mounted)
          else
            (.found c.name, mounted - 1)

/-- The argument of `findFirstIsoImage`: the path is missing (`os.stat`
raises `OSError`), is a regular file described by one candidate, or is a
directory whose listing yields the given candidates in order. -/
inductive FSPath
  | missing : FSPath
  | file : Candidate → FSPath
  | dir : List Candidate → FSPath

/-- Shallow embedding of `findFirstIsoImage` (image.py lines 38-111).
A missing path returns `None`; a regular file named `*.iso` is scanned as
the single candidate; any other regular file reaches `os.listdir(path)`,
which raises `NotADirectoryError` (an `OSError`); a directory scans its
listing. -/
def findFirstIsoImage (arch : String) (raiseOnSize : Bool) (p : FSPath) (mounts : Nat) :
    ScanOutcome × Nat :=
  match p with
  | .missing => (.notFound, mounts)
  | .file c =>
    if strEndsWith c.name ".iso" then
      scanLoop arch raiseOnSize [c] mounts
    else
      (.raisedOSError, mounts)
  | .dir cs => scanLoop arch raiseOnSize cs mounts

/-- The candidate set a given path denotes (empty when the scan never
reaches the loop). -/
def pathCandidates : FSPath → List Candidate
  | .missing => []
  | .file c => if strEndsWith c.name ".iso" then [c] else []
  | .dir cs => cs

/-- A candidate hits the `.discinfo` parse-failure branch: it is an ISO
image, mounts, its `.discinfo` is readable, and `DiscInfo.load` raises. -/
def parseFailLeak (c : Candidate) : Bool :=
  c.isIsoImage && c.mountOk && c.discinfoReadable && c.discinfoArch.isNone

/-- A candidate the loop skips with a `continue` (as opposed to returning,
or raising `InvalidImageSizeError`). -/
def skipsCandidate (arch : String) (c : Candidate) : Prop :=
  c.isIsoImage = false ∨ c.mountOk = false ∨ c.discinfoReadable = false ∨
    c.discinfoArch = none ∨
    (∃ a, c.discinfoArch = some a ∧ a ≠ arch) ∨
    (c.discinfoArch = some arch ∧ c.repodataValid = false)

/-- Net effect on the stacked-mount count of processing one skipped
candidate: only the parse-failure branch leaves its mount active. -/
def stepSkipMounts (c : Candidate) (mounts : Nat) : Nat :=
  if parseFailLeak c then mounts + 1 else mounts

/-- One iteration of the `while True` loop of `mountImage` (image.py lines
127-151), described by the environment facts that iteration consults:
`isodirIsFile` is `os.path.isfile(isodir)`; `scanResult` is what
`findFirstIsoImage(isodir)` returns when consulted; `mountOk` says whether
`blivet.util.mount(image, tree, ...)` succeeds; `policyRaise` says whether
`errorHandler.cb(MissingImageError())` returns `ERROR_RAISE` at whichever
of the two call sites this iteration reaches. -/
structure MountIter where
  isodirIsFile : Bool
  scanResult : Option String
  mountOk : Bool
  policyRaise : Bool
deriving DecidableEq, Repr

/-- Outcome of `mountImage`: a normal return (`break`), a propagated
`MissingImageError`, or the supplied iteration trace ran out while the
loop was still retrying. -/
inductive MountOutcome
  | success : MountOutcome
  | raisedMissing : MountOutcome
  | diverged : MountOutcome
deriving DecidableEq, Repr

/-- Shallow embedding of `mountImage` (image.py lines 127-151) over a
finite trace of loop iterations.  Each iteration resolves an image (the
path itself when it is a file, else the scanner's answer), and either
breaks on a successful mount, raises `MissingImageError` when the policy
answers `ERROR_RAISE`, or continues into the next iteration. -/
def mountImage : List MountIter → MountOutcome
  | [] => .diverged
  | it :: rest =>
    if it.isodirIsFile then
      if it.mountOk then .success
      else if it.policyRaise then .raisedMissing
      else mountImage rest
    else
      match it.scanResult with
      | none =>
        if it.policyRaise then .raisedMissing
        else mountImage rest
      | some _ =>
        if it.mountOk then .success
        else if it.policyRaise then .raisedMissing
        else mountImage rest

/-- An iteration resolves an image: the source path is a file, or the
scanner found one. -/
def resolvesImage (it : MountIter) : Bool :=
  it.isodirIsFile || it.scanResult.isSome

/-- An iteration's mount attempt succeeds (so the loop breaks there). -/
def mountAttemptSucceeds (it : MountIter) : Bool :=
  resolvesImage it && it.mountOk

/-- An iteration fails (missing image or failed mount) and the policy
suppresses, so the loop retries from image resolution. -/
def retriesIter (it : MountIter) : Bool :=
  !mountAttemptSucceeds it && !it.policyRaise

/-- An iteration fails and the policy answers `ERROR_RAISE`, so
`MissingImageError` propagates out of `mountImage`. -/
def abortsIter (it : MountIter) : Bool :=
  !mountAttemptSucceeds it && it.policyRaise

/-- A device examined by `opticalInstallMedia`, described by the facts the
function consults: the candidate-set membership tests `d.type == "cdrom"`
and `d.format.type == "iso9660"`; `controllable`; `hasMountMethod` is
`hasattr(dev.format, "mount")`; `mountFSErr` says `dev.format.mount`
raises `FSError`; `validateThrows` says `verifyMedia` raises;
`validMedia` is the boolean `verifyMedia` returns otherwise. -/
structure OptDevice where
  isCdrom : Bool
  isIso9660 : Bool
  controllable : Bool
  hasMountMethod : Bool
  mountFSErr : Bool
  validateThrows : Bool
  validMedia : Bool
deriving DecidableEq, Repr

/-- Resource events performed by `opticalInstallMedia` for one device:
`tempfile.mkdtemp()`, `dev.format.mount`, `dev.format.unmount`,
`os.rmdir(mountpoint)`. -/
inductive MEvent
  | mkdirEv : MEvent
  | mountEv : MEvent
  | unmountEv : MEvent
  | rmdirEv : MEvent
deriving DecidableEq, Repr

/-- What examining one device concludes: selected as the result, skipped
(`continue` or filtered out), or an exception propagated out of the
validation step. -/
inductive DevOut
  | selected : DevOut
  | skippedDev : DevOut
  | threw : DevOut
deriving DecidableEq, Repr

/-- The loop body of `opticalInstallMedia` (image.py lines 161-187) for a
single device: the events it performs, in order, and its conclusion.
The nested `try/finally` blocks guarantee `unmount` after a successful
`mount` and `rmdir` after `mkdtemp` on every exit, including the
`continue` after `FSError` and an exception thrown by `verifyMedia`. -/
def processDevice (d : OptDevice) : List MEvent × DevOut :=
  if !(d.isCdrom || d.isIso9660) then ([], .skippedDev)
  else if !d.controllable then ([], .skippedDev)
  else if !d.hasMountMethod then ([], .skippedDev)
  else if d.mountFSErr then ([.mkdirEv, .rmdirEv], .skippedDev)
  else if d.validateThrows then ([.mkdirEv, .mountEv, .unmountEv, .rmdirEv], .threw)
  else if d.validMedia then ([.mkdirEv, .mountEv, .unmountEv, .rmdirEv], .selected)
  else ([.mkdirEv, .mountEv, .unmountEv, .rmdirEv], .skippedDev)

/-- Overall outcome of `opticalInstallMedia`: the first valid device, a
`None` return after exhausting the candidates, or a propagated
exception. -/
inductive OptOutcome
  | foundDev : OptDevice → OptOutcome
  | noneFound : OptOutcome
  | threwOut : OptOutcome
deriving DecidableEq, Repr

/-- Shallow embedding of `opticalInstallMedia` (image.py lines 155-189):
processes the candidate devices in order, accumulating the resource-event
trace, until one is selected (`break`), an exception propagates, or the
candidates are exhausted (`return None`). -/
def opticalInstallMedia : List OptDevice → List MEvent × OptOutcome
  | [] => ([], .noneFound)
  | d :: rest =>
    match processDevice d with
    | (evs, .selected) => (evs, .foundDev d)
    | (evs, .threw) => (evs, .threwOut)
    | (evs, .skippedDev) =>
      match opticalInstallMedia rest with
      | (evs2, out) => (evs ++ evs2, out)

/-- Number of occurrences of one resource event in a trace. -/
def countEv (e : MEvent) (evs : List MEvent) : Nat :=
  (evs.filter (fun x => x == e)).length

/-- Shallow embedding of `verifyMedia` (image.py lines 197-214).  The
`.discinfo` file under `tree` is `none` when `os.access(..., os.R_OK)`
fails, else the list of its raw lines (`readline` past the end of the
file yields the empty string); `timestamp` is the optional expected
timestamp.  `pyStrip` models Python's `str.strip()`. -/
def verifyMedia (arch : String) (file : Option (List String)) (timestamp : Option String) :
    Bool :=
  match file with
  | some lines =>
    let newStamp := pyStrip (lines.getD 0 "")
    let discArch := pyStrip (lines.getD 2 "")
    match timestamp with
    | some t =>
      if newStamp == t && discArch == arch then true else false
    | none =>
      if discArch == arch then true else false
  | none => false

/-- Modelled from the spec: the source module
`pyanaconda/modules/timezone/installation.py` (classes
`ConfigureTimezoneTask` and `ConfigureNTPTask`) is not in the repository
fragment; only its unit tests are.  Input bundle of
`ConfigureTimezoneTask`: the requested timezone identifier (`none` models
an absent value) and the is-UTC flag. -/
structure TZInput where
  timezone : Option String
  isUtc : Bool
deriving DecidableEq, Repr

/-- Modelled from the spec: environment facts `ConfigureTimezoneTask.run`
consults, for the missing `pyanaconda/modules/timezone/installation.py`.
`validZones` are the timezone identifiers the running system recognizes;
`zoneinfoFiles` are the zones whose zone-info file exists under the
sysroot; `symlinkFails` says `os.symlink` raises `OSError`;
`adjtimeWriteFails` says writing `/etc/adjtime` raises `OSError`;
`isS390` is `arch.is_s390()`. -/
structure TZEnv where
  validZones : List String
  zoneinfoFiles : List String
  symlinkFails : Bool
  adjtimeWriteFails : Bool
  isS390 : Bool
deriving DecidableEq, Repr

/-- The fatal failure kind of the timezone configuration task. -/
inductive TZError
  | timezoneConfigurationError : TZError
deriving DecidableEq, Repr

/-- Observable result of a completed `ConfigureTimezoneTask.run`:
the resolved zone, the target of the `/etc/localtime` symlink under the
sysroot (`none` when it was not created), the final last line of
`/etc/adjtime` (`none` when not written), and whether a correction
warning resp. a configuration error was logged. -/
structure TZResult where
  resolvedZone : String
  localtimeLink : Option String
  adjtimeLastLine : Option String
  loggedCorrection : Bool
  loggedError : Bool
deriving DecidableEq, Repr

/-- The fixed fallback zone substituted for unrecognized identifiers. -/
def fallbackZone : String := "America/New_York"

/-- An identifier the timezone correction step replaces with the
fallback: absent, empty, or not a recognized timezone identifier. -/
def invalidTimezone (env : TZEnv) : Option String → Bool
  | none => true
  | some z => z == "" || !(env.validZones.contains z)

/-- Modelled from the spec: the correction step of
`ConfigureTimezoneTask.run` (missing
`pyanaconda/modules/timezone/installation.py`).  An absent, empty or
unrecognized identifier is replaced by the fixed fallback zone and the
correction is logged; the test `test_timezone_task_correction` pins this
for `""`, `"BahBlah"` and `None`. -/
def correctTimezone (env : TZEnv) (tz : Option String) : String × Bool :=
  if invalidTimezone env tz then (fallbackZone, true)
  else ((tz.getD fallbackZone), false)

/-- Modelled from the spec: the symlink step of
`ConfigureTimezoneTask.run` (missing
`pyanaconda/modules/timezone/installation.py`), returning the created
`/etc/localtime` link target and whether an error was logged.  Where the
spec says a failing link creation raises, the repository's own test
`test_timezone_task_symlink_failure` (and `test_timezone_task_timezone_missing`)
instead requires an ERROR log and a normal completion with no
`/etc/localtime`; the tests are followed here. -/
def configureTimezone (env : TZEnv) (zone : String) : Option String × Bool :=
  if !(env.zoneinfoFiles.contains zone) then (none, true)
  else if env.symlinkFails then (none, true)
  else (some ("../usr/share/zoneinfo/" ++ zone), false)

/-- Modelled from the spec: the `/etc/adjtime` step of
`ConfigureTimezoneTask.run` (missing
`pyanaconda/modules/timezone/installation.py`).  Skipped entirely on
s390; otherwise the last line becomes `UTC` or `LOCAL`, and a write
failure raises the fatal timezone-configuration error (pinned by
`test_timezone_task_write_adjtime_failure`). -/
def configureAdjtime (env : TZEnv) (isUtc : Bool) : Except TZError (Option String) :=
  if env.isS390 then .ok none
  else if env.adjtimeWriteFails then .error .timezoneConfigurationError
  else .ok (some (if isUtc then "UTC" else "LOCAL"))

/-- Modelled from the spec: `ConfigureTimezoneTask.run` of the missing
`pyanaconda/modules/timezone/installation.py`, composed of the
correction, symlink and adjtime steps. -/
def configureTimezoneTaskRun (env : TZEnv) (inp : TZInput) : Except TZError TZResult :=
  match correctTimezone env inp.timezone with
  | (zone, corrected) =>
    match configureTimezone env zone with
    | (link, errLogged) =>
      match configureAdjtime env inp.isUtc with
      | .error e => .error e
      | .ok lastLine => .ok ⟨zone, link, lastLine, corrected, errLogged⟩

/-- A time source rendered into the NTP configuration: a server or pool
line with a hostname and options. -/
structure TimeSource where
  isPool : Bool
  hostname : String
  options : List String
deriving DecidableEq, Repr

/-- Rendering of one time source as one NTP configuration line. -/
def renderTimeSource (ts : TimeSource) : String :=
  (if ts.isPool then "pool " else "server ") ++ ts.hostname ++
    String.join (ts.options.map (fun o => " " ++ o))

/-- Modelled from the spec: input bundle of `ConfigureNTPTask` (missing
`pyanaconda/modules/timezone/installation.py`). -/
structure NTPInput where
  ntpEnabled : Bool
  ntpServers : List TimeSource
deriving DecidableEq, Repr

/-- Modelled from the spec: environment facts `ConfigureNTPTask.run`
consults (missing `pyanaconda/modules/timezone/installation.py`).
`serviceInstalled` is `util.is_service_installed("chronyd", root=sysroot)`;
`saveFails` says `ntp.save_servers_to_config` raises `NTPconfigError`. -/
structure NTPEnv where
  serviceInstalled : Bool
  saveFails : Bool
deriving DecidableEq, Repr

/-- The failure kind of the NTP configuration writer (`NTPconfigError`);
never escapes `ConfigureNTPTask.run`. -/
inductive NTPError
  | ntpConfigError : NTPError
deriving DecidableEq, Repr

/-- Observable result of a completed `ConfigureNTPTask.run`: which
service calls were made, the configuration lines written (`none` when no
write happened or it failed), and whether a warning was logged. -/
structure NTPResult where
  enableCalled : Bool
  disableCalled : Bool
  configWritten : Option (List String)
  loggedWarning : Bool
deriving DecidableEq, Repr

/-- Modelled from the spec: `ConfigureNTPTask.run` of the missing
`pyanaconda/modules/timezone/installation.py`.  When the NTP service is
not installed neither enable nor disable is called; when installed,
exactly one of them is, chosen by `ntpEnabled` (pinned by
`NTPTasksTestCase._validate_ntp_service`).  When NTP is enabled and at
least one source is supplied the configuration file is rewritten; an
`NTPconfigError` from the writer is caught and logged as a warning
(pinned by `test_ntp_save_failure`), so `run` always returns `.ok`. -/
def configureNTPTaskRun (env : NTPEnv) (inp : NTPInput) : Except NTPError NTPResult :=
  let enable := env.serviceInstalled && inp.ntpEnabled
  let disable := env.serviceInstalled && !inp.ntpEnabled
  if inp.ntpEnabled && !inp.ntpServers.isEmpty then
    if env.saveFails then
      .ok ⟨enable, disable, none, true⟩
    else
      .ok ⟨enable, disable, some (inp.ntpServers.map renderTimeSource), false⟩
  else
    .ok ⟨enable, disable, none, false⟩

lemma scanLoop_cons_skip (arch : String) (roS : Bool) (c : Candidate)
    (rest : List Candidate) (m : Nat) (h : skipsCandidate arch c) :
    scanLoop arch roS (c :: rest) m = scanLoop arch roS rest (stepSkipMounts c m) := by
  rcases h with h | h | h | h | ⟨a, ha, hne⟩ | ⟨ha, hr⟩
  · simp [scanLoop, stepSkipMounts, parseFailLeak, h]
  · cases hI : c.isIsoImage <;>
      simp [scanLoop, stepSkipMounts, parseFailLeak, h, hI]
  · cases hI : c.isIsoImage <;> cases hM : c.mountOk <;>
      simp [scanLoop, stepSkipMounts, parseFailLeak, h, hI, hM]
  · cases hI : c.isIsoImage <;> cases hM : c.mountOk <;> cases hR : c.discinfoReadable <;>
      simp [scanLoop, stepSkipMounts, parseFailLeak, h, hI, hM, hR]
  · cases hI : c.isIsoImage <;> cases hM : c.mountOk <;> cases hR : c.discinfoReadable <;>
      simp [scanLoop, stepSkipMounts, parseFailLeak, ha, hI, hM, hR, hne]
  · cases hI : c.isIsoImage <;> cases hM : c.mountOk <;> cases hR : c.discinfoReadable <;>
      simp [scanLoop, stepSkipMounts, parseFailLeak, ha, hr, hI, hM, hR]

lemma scanLoop_cons_accept (arch : String) (roS : Bool) (c : Candidate)
    (rest : List Candidate) (m : Nat)
    (hI : c.isIsoImage = true) (hM : c.mountOk = true) (hR : c.discinfoReadable = true)
    (hA : c.discinfoArch = some arch) (hRep : c.repodataValid = true) :
    scanLoop arch roS (c :: rest) m =
      if !c.sizeOk && roS then (ScanOutcome.raisedInvalidSize c.name, m + 1)
      else (ScanOutcome.found c.name, m) := by
  cases hS : c.sizeOk <;> cases roS <;>
    simp [scanLoop, hI, hM, hR, hA, hRep, hS]

lemma skips_or_accepts (arch : String) (c : Candidate) :
    skipsCandidate arch c ∨
      (c.isIsoImage = true ∧ c.mountOk = true ∧ c.discinfoReadable = true ∧
        c.discinfoArch = some arch ∧ c.repodataValid = true) := by
  cases hI : c.isIsoImage
  · exact Or.inl (Or.inl hI)
  · cases hM : c.mountOk
    · exact Or.inl (Or.inr (Or.inl hM))
    · cases hR : c.discinfoReadable
      · exact Or.inl (Or.inr (Or.inr (Or.inl hR)))
      · cases hA : c.discinfoArch with
        | none => exact Or.inl (Or.inr (Or.inr (Or.inr (Or.inl hA))))
        | some a =>
          by_cases hEq : a = arch
          · cases hRep : c.repodataValid
            · exact Or.inl (Or.inr (Or.inr (Or.inr (Or.inr (Or.inr ⟨hEq ▸ hA, hRep⟩)))))
            · exact Or.inr ⟨rfl, rfl, rfl, by rw [hEq], rfl⟩
          · exact Or.inl (Or.inr (Or.inr (Or.inr (Or.inr (Or.inl ⟨a, hA, hEq⟩)))))

/-- Mount count accumulated while the loop skips over a list of
candidates. -/
def skipMountsAcc (pre : List Candidate) (m : Nat) : Nat :=
  pre.foldl (fun acc c => stepSkipMounts c acc) m

lemma scanLoop_append_skips (arch : String) (roS : Bool) (pre : List Candidate)
    (h : ∀ c ∈ pre, skipsCandidate arch c) (cs : List Candidate) (m : Nat) :
    scanLoop arch roS (pre ++ cs) m = scanLoop arch roS cs (skipMountsAcc pre m) := by
  induction pre generalizing m with
  | nil => simp [skipMountsAcc]
  | cons c p ih =>
    rw [List.cons_append, scanLoop_cons_skip arch roS c (p ++ cs) m (h c (by simp))]
    rw [ih (fun x hx => h x (by simp [hx]))]
    rfl

lemma scanLoop_found_arch (arch : String) (roS : Bool) :
    ∀ (cs : List Candidate) (m : Nat) (n : String),
      (scanLoop arch roS cs m).1 = ScanOutcome.found n →
      ∃ c, c ∈ cs ∧ c.name = n ∧ c.discinfoArch = some arch := by
  intro cs
  induction cs with
  | nil => intro m n h; simp [scanLoop] at h
  | cons c rest ih =>
    intro m n h
    rcases skips_or_accepts arch c with hs | ⟨hI, hM, hR, hA, hRep⟩
    · rw [scanLoop_cons_skip arch roS c rest m hs] at h
      obtain ⟨x, hx, hn, ha⟩ := ih _ n h
      exact ⟨x, by simp [hx], hn, ha⟩
    · rw [scanLoop_cons_accept arch roS c rest m hI hM hR hA hRep] at h
      by_cases hsz : (!c.sizeOk && roS) = true
      · rw [if_pos hsz] at h
        simp at h
      · rw [if_neg hsz] at h
        simp at h
        exact ⟨c, by simp, h, hA⟩

lemma scanLoop_mounts_no_leak (arch : String) (roS : Bool) :
    ∀ (cs : List Candidate) (m : Nat),
      (∀ c ∈ cs, parseFailLeak c = false) →
      ((scanLoop arch roS cs m).1 = ScanOutcome.notFound ∨
        ∃ n, (scanLoop arch roS cs m).1 = ScanOutcome.found n) →
      (scanLoop arch roS cs m).2 = m := by
  intro cs
  induction cs with
  | nil => intro m _ _; simp [scanLoop]
  | cons c rest ih =>
    intro m hnl hout
    rcases skips_or_accepts arch c with hs | ⟨hI, hM, hR, hA, hRep⟩
    · have hstep := scanLoop_cons_skip arch roS c rest m hs
      have hm : stepSkipMounts c m = m := by
        simp [stepSkipMounts, hnl c (by simp)]
      rw [hstep, hm] at hout ⊢
      exact ih m (fun x hx => hnl x (by simp [hx])) hout
    · have hstep := scanLoop_cons_accept arch roS c rest m hI hM hR hA hRep
      rw [hstep] at hout ⊢
      by_cases hsz : (!c.sizeOk && roS) = true
      · rw [if_pos hsz] at hout
        rcases hout with h | ⟨n, h⟩ <;> simp at h
      · rw [if_neg hsz]

/-- C1 counterexample input: a single ISO candidate that mounts, has a
readable `.discinfo`, but whose `.discinfo` fails to parse. -/
def leakCandidate : Candidate :=
  ⟨"leaky.iso", true, true, true, none, true, true⟩

/-- C1 (counterexample): on a directory with one candidate whose
`.discinfo` fails to parse, `findFirstIsoImage` returns `None` with the
candidate's mount still active at the scratch mount point (final stack
height 1, not 0), so the claim that no mount is active after returning,
including the parse-failure branch, is false. -/
theorem findFirstIsoImage_parse_leak_counterexample :
    (findFirstIsoImage "x86_64" true (FSPath.dir [leakCandidate]) 0).1 =
        ScanOutcome.notFound ∧
      (findFirstIsoImage "x86_64" true (FSPath.dir [leakCandidate]) 0).2 = 1 := by
  constructor <;> rfl

/-- C1 (amended): `findFirstIsoImage` never returns a candidate whose
`.discinfo` architecture differs from the running architecture; and
provided no candidate reaches the `.discinfo` parse-failure branch, no
mount at the scratch mount point is still active after it returns a name
or `None`.  (A candidate whose `.discinfo` fails to parse leaves its
mount active.) -/
theorem findFirstIsoImage_arch_and_unmounts (arch : String) (roS : Bool) (p : FSPath) :
    (∀ n, (findFirstIsoImage arch roS p 0).1 = ScanOutcome.found n →
      ∃ c, c ∈ pathCandidates p ∧ c.name = n ∧ c.discinfoArch = some arch)
    ∧ ((∀ c ∈ pathCandidates p, parseFailLeak c = false) →
      ((findFirstIsoImage arch roS p 0).1 = ScanOutcome.notFound ∨
        ∃ n, (findFirstIsoImage arch roS p 0).1 = ScanOutcome.found n) →
      (findFirstIsoImage arch roS p 0).2 = 0) := by
  cases p with
  | missing =>
    refine ⟨fun n h => ?_, fun _ _ => rfl⟩
    simp [findFirstIsoImage] at h
  | file c =>
    by_cases hE : strEndsWith c.name ".iso" = true
    · constructor
      · intro n h
        simp only [findFirstIsoImage, hE, if_true] at h
        obtain ⟨x, hx, hn, ha⟩ := scanLoop_found_arch arch roS [c] 0 n h
        exact ⟨x, by simpa [pathCandidates, hE] using hx, hn, ha⟩
      · intro hnl hout
        simp only [findFirstIsoImage, hE, if_true] at hout ⊢
        exact scanLoop_mounts_no_leak arch roS [c] 0
          (by simpa [pathCandidates, hE] using hnl) hout
    · constructor
      · intro n h
        simp [findFirstIsoImage, hE] at h
      · intro _ _
        simp [findFirstIsoImage, hE]
  | dir cs =>
    constructor
    · intro n h
      exact scanLoop_found_arch arch roS cs 0 n h
    · intro hnl hout
      exact scanLoop_mounts_no_leak arch roS cs 0 hnl hout

/-- C1 witness input: a clean acceptable candidate. -/
def cleanCandidate : Candidate :=
  ⟨"good.iso", true, true, true, some "x86_64", true, true⟩

/-- C1 (witness): on a concrete directory with one clean candidate the
amended theorem yields a matching-architecture result and a final mount
stack of height 0. -/
theorem findFirstIsoImage_arch_and_unmounts_witness :
    (∃ c, c ∈ pathCandidates (FSPath.dir [cleanCandidate]) ∧ c.name = "good.iso" ∧
      c.discinfoArch = some "x86_64") ∧
    (findFirstIsoImage "x86_64" true (FSPath.dir [cleanCandidate]) 0).2 = 0 := by
  constructor
  · exact (findFirstIsoImage_arch_and_unmounts "x86_64" true
      (FSPath.dir [cleanCandidate])).1 "good.iso" (by rfl)
  · exact (findFirstIsoImage_arch_and_unmounts "x86_64" true
      (FSPath.dir [cleanCandidate])).2 (by decide) (Or.inr ⟨"good.iso", rfl⟩)

/-- C3: a candidate that passes the architecture and repodata checks but
whose size is not a multiple of 2048 routes `InvalidImageSizeError`
through the error policy: under `ERROR_RAISE` the error propagates out of
`findFirstIsoImage` (with the candidate still mounted), and under a
suppressing policy the candidate is unmounted (final mount stack equal to
the one accumulated before it) and returned as the accepted image.  The
candidates before it may be any that the loop skips. -/
theorem findFirstIsoImage_invalid_size_policy (arch : String) (pre post : List Candidate)
    (c : Candidate) (hpre : ∀ x ∈ pre, skipsCandidate arch x)
    (hI : c.isIsoImage = true) (hM : c.mountOk = true) (hR : c.discinfoReadable = true)
    (hA : c.discinfoArch = some arch) (hRep : c.repodataValid = true)
    (hS : c.sizeOk = false) :
    ∃ m, findFirstIsoImage arch true (FSPath.dir (pre ++ c :: post)) 0 =
        (ScanOutcome.raisedInvalidSize c.name, m + 1) ∧
      findFirstIsoImage arch false (FSPath.dir (pre ++ c :: post)) 0 =
        (ScanOutcome.found c.name, m) := by
  refine ⟨skipMountsAcc pre 0, ?_, ?_⟩
  · show scanLoop arch true (pre ++ c :: post) 0 = _
    rw [scanLoop_append_skips arch true pre hpre,
      scanLoop_cons_accept arch true c post (skipMountsAcc pre 0) hI hM hR hA hRep]
    simp [hS]
  · show scanLoop arch false (pre ++ c :: post) 0 = _
    rw [scanLoop_append_skips arch false pre hpre,
      scanLoop_cons_accept arch false c post (skipMountsAcc pre 0) hI hM hR hA hRep]
    simp [hS]

/-- C3 witness input: an otherwise acceptable candidate whose size is not
a multiple of 2048 bytes. -/
def oddSizeCandidate : Candidate :=
  ⟨"odd.iso", true, true, true, some "x86_64", true, false⟩

/-- C3 (witness): at a concrete single-candidate directory, the raising
policy propagates `InvalidImageSizeError` and the suppressing policy
accepts and unmounts the candidate. -/
theorem findFirstIsoImage_invalid_size_policy_witness :
    ∃ m, findFirstIsoImage "x86_64" true (FSPath.dir ([] ++ oddSizeCandidate :: [])) 0 =
        (ScanOutcome.raisedInvalidSize "odd.iso", m + 1) ∧
      findFirstIsoImage "x86_64" false (FSPath.dir ([] ++ oddSizeCandidate :: [])) 0 =
        (ScanOutcome.found "odd.iso", m) :=
  findFirstIsoImage_invalid_size_policy "x86_64" [] [] oddSizeCandidate
    (by intro x hx; simp at hx) rfl rfl rfl rfl rfl rfl

/-- C10: for a path that exists and is a regular file not named `*.iso`,
`findFirstIsoImage` reaches `os.listdir` on that file and the resulting
`OSError` (`NotADirectoryError`) propagates, whereas a nonexistent path
returns `None`. -/
theorem findFirstIsoImage_nondir_listing_raises (arch : String) (roS : Bool)
    (c : Candidate) (m : Nat) (h : strEndsWith c.name ".iso" = false) :
    (findFirstIsoImage arch roS (FSPath.file c) m).1 = ScanOutcome.raisedOSError ∧
      (findFirstIsoImage arch roS FSPath.missing m).1 = ScanOutcome.notFound := by
  constructor
  · simp [findFirstIsoImage, h]
  · rfl

/-- C10 witness input: a regular file whose name does not end in
`.iso`. -/
def imgCandidate : Candidate :=
  ⟨"disk.img", true, true, true, some "x86_64", true, true⟩

/-- C10 (witness): the concrete file `disk.img` makes the scan raise
`OSError` while a missing path yields `None`. -/
theorem findFirstIsoImage_nondir_listing_raises_witness :
    (findFirstIsoImage "x86_64" true (FSPath.file imgCandidate) 0).1 =
        ScanOutcome.raisedOSError ∧
      (findFirstIsoImage "x86_64" true FSPath.missing 0).1 = ScanOutcome.notFound :=
  findFirstIsoImage_nondir_listing_raises "x86_64" true imgCandidate 0 (by decide)

lemma mountImage_cons (it : MountIter) (rest : List MountIter) :
    mountImage (it :: rest) =
      if mountAttemptSucceeds it then MountOutcome.success
      else if it.policyRaise then MountOutcome.raisedMissing
      else mountImage rest := by
  rcases it with ⟨f, s, mo, pr⟩
  cases f <;> cases s <;> cases mo <;> cases pr <;>
    simp [mountImage, mountAttemptSucceeds, resolvesImage]

/-- C4: `mountImage` returns normally exactly when some loop iteration's
mount attempt succeeds after a (possibly empty) run of iterations whose
failure (scanner `NotFound` with the source not a file, or OS-level mount
failure) the error policy suppressed; and it propagates
`MissingImageError` exactly when, after such a run of suppressed
failures, an iteration fails and the policy answers `ERROR_RAISE`. -/
theorem mountImage_loop_characterization (its : List MountIter) :
    (mountImage its = MountOutcome.success ↔
      ∃ p it q, its = p ++ it :: q ∧ (∀ j ∈ p, retriesIter j = true) ∧
        mountAttemptSucceeds it = true)
    ∧ (mountImage its = MountOutcome.raisedMissing ↔
      ∃ p it q, its = p ++ it :: q ∧ (∀ j ∈ p, retriesIter j = true) ∧
        abortsIter it = true) := by
  induction its with
  | nil =>
    constructor
    · constructor
      · intro h; simp [mountImage] at h
      · rintro ⟨p, it, q, hpq, -, -⟩
        exact absurd hpq (by simp)
    · constructor
      · intro h; simp [mountImage] at h
      · rintro ⟨p, it, q, hpq, -, -⟩
        exact absurd hpq (by simp)
  | cons it rest ih =>
    rw [mountImage_cons]
    by_cases hs : mountAttemptSucceeds it = true
    · rw [if_pos hs]
      constructor
      · constructor
        · intro _
          exact ⟨[], it, rest, by simp, by simp, hs⟩
        · intro _; rfl
      · constructor
        · intro h; cases h
        · rintro ⟨p, j, q, hpq, hall, habort⟩
          cases p with
          | nil =>
            simp at hpq
            obtain ⟨h1, -⟩ := hpq
            rw [← h1] at habort
            simp [abortsIter, hs] at habort
          | cons a p2 =>
            simp at hpq
            obtain ⟨h1, -⟩ := hpq
            have := hall a (by simp)
            rw [← h1] at this
            simp [retriesIter, hs] at this
    · rw [if_neg hs]
      have hsf : mountAttemptSucceeds it = false := by
        cases hx : mountAttemptSucceeds it
        · rfl
        · exact absurd hx hs
      by_cases hr : it.policyRaise = true
      · rw [if_pos hr]
        constructor
        · constructor
          · intro h; cases h
          · rintro ⟨p, j, q, hpq, hall, hsucc⟩
            cases p with
            | nil =>
              simp at hpq
              obtain ⟨h1, -⟩ := hpq
              rw [← h1] at hsucc
              rw [hsucc] at hsf
              cases hsf
            | cons a p2 =>
              simp at hpq
              obtain ⟨h1, -⟩ := hpq
              have := hall a (by simp)
              rw [← h1] at this
              simp [retriesIter, hr] at this
        · constructor
          · intro _
            refine ⟨[], it, rest, by simp, by simp, ?_⟩
            simp [abortsIter, hsf, hr]
          · intro _; rfl
      · rw [if_neg hr]
        have hrf : it.policyRaise = false := by
          cases hx : it.policyRaise
          · rfl
          · exact absurd hx hr
        have hretry : retriesIter it = true := by
          simp [retriesIter, hsf, hrf]
        constructor
        · constructor
          · intro h
            obtain ⟨p, j, q, hpq, hall, hsucc⟩ := ih.1.mp h
            exact ⟨it :: p, j, q, by simp [hpq], by
              intro x hx
              rcases List.mem_cons.mp hx with hx | hx
              · rw [hx]; exact hretry
              · exact hall x hx, hsucc⟩
          · rintro ⟨p, j, q, hpq, hall, hsucc⟩
            cases p with
            | nil =>
              simp at hpq
              obtain ⟨h1, h2⟩ := hpq
              rw [← h1] at hsucc
              rw [hsucc] at hsf
              cases hsf
            | cons a p2 =>
              simp at hpq
              obtain ⟨h1, h2⟩ := hpq
              refine ih.1.mpr ⟨p2, j, q, h2, fun x hx => hall x (by simp [hx]), hsucc⟩
        · constructor
          · intro h
            obtain ⟨p, j, q, hpq, hall, habort⟩ := ih.2.mp h
            exact ⟨it :: p, j, q, by simp [hpq], by
              intro x hx
              rcases List.mem_cons.mp hx with hx | hx
              · rw [hx]; exact hretry
              · exact hall x hx, habort⟩
          · rintro ⟨p, j, q, hpq, hall, habort⟩
            cases p with
            | nil =>
              simp at hpq
              obtain ⟨h1, -⟩ := hpq
              rw [← h1] at habort
              simp [abortsIter, hrf] at habort
            | cons a p2 =>
              simp at hpq
              obtain ⟨h1, h2⟩ := hpq
              refine ih.2.mpr ⟨p2, j, q, h2, fun x hx => hall x (by simp [hx]), habort⟩

/-- C4 (witness): a concrete two-iteration trace — a suppressed missing
image, then a successful mount — returns normally, and the
characterization exhibits its successful iteration. -/
theorem mountImage_loop_characterization_witness :
    ∃ p it q, [(⟨false, none, false, false⟩ : MountIter), ⟨false, some "boot.iso", true, false⟩] =
        p ++ it :: q ∧ (∀ j ∈ p, retriesIter j = true) ∧ mountAttemptSucceeds it = true :=
  (mountImage_loop_characterization
    [⟨false, none, false, false⟩, ⟨false, some "boot.iso", true, false⟩]).1.mp (by rfl)

lemma countEv_append (e : MEvent) (a b : List MEvent) :
    countEv e (a ++ b) = countEv e a + countEv e b := by
  simp [countEv, List.filter_append]

lemma processDevice_balanced (d : OptDevice) :
    countEv MEvent.mountEv (processDevice d).1 = countEv MEvent.unmountEv (processDevice d).1 ∧
      countEv MEvent.mkdirEv (processDevice d).1 = countEv MEvent.rmdirEv (processDevice d).1 := by
  rcases d with ⟨a, b, c, e, f, g, h⟩
  cases a <;> cases b <;> cases c <;> cases e <;> cases f <;> cases g <;> cases h <;>
    exact ⟨rfl, rfl⟩

/-- C5: every device examined by `opticalInstallMedia` performs a
balanced resource trace — as many unmounts as mounts and as many
scratch-directory removals as creations — both per device and for the
whole run, on every exit (a selected device, exhaustion, or a thrown
validation error). -/
theorem opticalInstallMedia_resource_balanced (ds : List OptDevice) :
    (∀ d : OptDevice,
      countEv MEvent.mountEv (processDevice d).1 = countEv MEvent.unmountEv (processDevice d).1 ∧
        countEv MEvent.mkdirEv (processDevice d).1 = countEv MEvent.rmdirEv (processDevice d).1) ∧
      countEv MEvent.mountEv (opticalInstallMedia ds).1 =
        countEv MEvent.unmountEv (opticalInstallMedia ds).1 ∧
      countEv MEvent.mkdirEv (opticalInstallMedia ds).1 =
        countEv MEvent.rmdirEv (opticalInstallMedia ds).1 := by
  refine ⟨processDevice_balanced, ?_⟩
  induction ds with
  | nil => exact ⟨rfl, rfl⟩
  | cons d rest ih =>
    rcases hpd : processDevice d with ⟨evs, out⟩
    have hb := processDevice_balanced d
    rw [hpd] at hb
    cases out with
    | selected =>
      simpa [opticalInstallMedia, hpd] using hb
    | threw =>
      simpa [opticalInstallMedia, hpd] using hb
    | skippedDev =>
      constructor
      · simp [opticalInstallMedia, hpd, countEv_append, hb.1, ih.1]
      · simp [opticalInstallMedia, hpd, countEv_append, hb.2, ih.2]

/-- C7: `verifyMedia` returns false when the `.discinfo` marker is
unreadable; with a timestamp argument it returns true exactly when the
stripped first line equals the timestamp and the stripped third line
equals the running architecture; without one, exactly when the stripped
third line equals the running architecture. -/
theorem verifyMedia_characterization (arch : String) (file : Option (List String))
    (timestamp : Option String) :
    (file = none → verifyMedia arch file timestamp = false)
    ∧ (∀ lines t, file = some lines → timestamp = some t →
      (verifyMedia arch file timestamp = true ↔
        pyStrip (lines.getD 0 "") = t ∧ pyStrip (lines.getD 2 "") = arch))
    ∧ (∀ lines, file = some lines → timestamp = none →
      (verifyMedia arch file timestamp = true ↔ pyStrip (lines.getD 2 "") = arch)) := by
  refine ⟨?_, ?_, ?_⟩
  · rintro rfl
    rfl
  · rintro lines t rfl rfl
    by_cases h : (pyStrip (lines.getD 0 "") == t && pyStrip (lines.getD 2 "") == arch) = true
    · simp only [verifyMedia, h, if_true]
      simp only [Bool.and_eq_true, beq_iff_eq] at h
      simp [← List.getD_eq_getElem?_getD, h]
    · simp only [verifyMedia, h, if_false]
      simp only [Bool.and_eq_true, beq_iff_eq] at h
      simp [← List.getD_eq_getElem?_getD, h]
  · rintro lines rfl rfl
    by_cases h : (pyStrip (lines.getD 2 "") == arch) = true
    · simp only [verifyMedia, h, if_true]
      simp only [beq_iff_eq] at h
      simp [← List.getD_eq_getElem?_getD, h]
    · simp only [verifyMedia, h, if_false]
      simp only [beq_iff_eq] at h
      simp [← List.getD_eq_getElem?_getD, h]

/-- C7 (witness): concrete marker files — with a matching timestamp and
architecture the check passes, and without a timestamp argument the
timestamp line is ignored. -/
theorem verifyMedia_characterization_witness :
    verifyMedia "x86_64" (some ["1285622400.6", "Fedora 14", " x86_64 "])
        (some "1285622400.6") = true ∧
      verifyMedia "x86_64" (some ["ignored stamp", "desc", "x86_64"]) none = true := by
  constructor
  · exact ((verifyMedia_characterization "x86_64"
      (some ["1285622400.6", "Fedora 14", " x86_64 "]) (some "1285622400.6")).2.1
      ["1285622400.6", "Fedora 14", " x86_64 "] "1285622400.6" rfl rfl).mpr
      ⟨by decide, by decide⟩
  · exact ((verifyMedia_characterization "x86_64"
      (some ["ignored stamp", "desc", "x86_64"]) none).2.2
      ["ignored stamp", "desc", "x86_64"] rfl rfl).mpr (by decide)

/-- C2 counterexample input: a sysroot where the requested zone is valid
and its zone-info file exists, but `os.symlink` fails. -/
def tzEnvSymlinkFail : TZEnv :=
  ⟨["Asia/Ulaanbaatar"], ["Asia/Ulaanbaatar"], true, false, false⟩

/-- C2 (counterexample): with `os.symlink` failing,
`ConfigureTimezoneTask.run` does NOT raise — it returns normally with an
error logged and no `/etc/localtime` created (behaviour pinned by
`test_timezone_task_symlink_failure`, which expects an ERROR log and no
exception), so the claim that the failure is fatal to the task is
false. -/
theorem configureTimezoneTask_symlink_counterexample :
    tzEnvSymlinkFail.symlinkFails = true ∧
      configureTimezoneTaskRun tzEnvSymlinkFail ⟨some "Asia/Ulaanbaatar", false⟩ =
        Except.ok ⟨"Asia/Ulaanbaatar", none, some "LOCAL", false, true⟩ := by
  exact ⟨rfl, rfl⟩

/-- C2 (amended): when the `/etc/localtime` symlink cannot be created
(missing zone-info target or failing `os.symlink`),
`ConfigureTimezoneTask.run` logs an error and completes normally with no
`/etc/localtime`; only a failure to write `/etc/adjtime` raises the
fatal timezone-configuration error. -/
theorem configureTimezoneTask_symlink_failure_nonfatal (env : TZEnv) (inp : TZInput)
    (hl : env.symlinkFails = true) (ha : env.adjtimeWriteFails = false) :
    ∃ r, configureTimezoneTaskRun env inp = Except.ok r ∧
      r.localtimeLink = none ∧ r.loggedError = true := by
  rcases hc : correctTimezone env inp.timezone with ⟨zone, corr⟩
  have hlink : configureTimezone env zone = (none, true) := by
    unfold configureTimezone
    by_cases h : env.zoneinfoFiles.contains zone = true
    · simp [h, hl]
    · simp [h, hl]
  obtain ⟨last, hadj⟩ : ∃ last, configureAdjtime env inp.isUtc = Except.ok last := by
    unfold configureAdjtime
    cases hs : env.isS390 <;> simp [ha]
  refine ⟨⟨zone, none, last, corr, true⟩, ?_, rfl, rfl⟩
  simp [configureTimezoneTaskRun, hc, hlink, hadj]

/-- C2 (witness): the amended theorem applied at the concrete
symlink-failing environment. -/
theorem configureTimezoneTask_symlink_failure_nonfatal_witness :
    ∃ r, configureTimezoneTaskRun tzEnvSymlinkFail ⟨some "Asia/Ulaanbaatar", false⟩ =
        Except.ok r ∧ r.localtimeLink = none ∧ r.loggedError = true :=
  configureTimezoneTask_symlink_failure_nonfatal tzEnvSymlinkFail
    ⟨some "Asia/Ulaanbaatar", false⟩ rfl rfl

/-- C9 counterexample input: `Asia/Ulaanbaatar` is a recognized timezone
identifier but its zone-info file is missing under the sysroot (only the
fallback zone's file exists). -/
def tzEnvMissingZoneinfo : TZEnv :=
  ⟨["Asia/Ulaanbaatar"], ["America/New_York"], false, false, false⟩

/-- C9 (counterexample): a valid identifier whose zone-info file does not
exist under the sysroot is NOT corrected to the fallback zone —
`ConfigureTimezoneTask.run` keeps the requested zone, logs an error, and
creates no `/etc/localtime` (behaviour pinned by
`test_timezone_task_timezone_missing`), so the claim that every
identifier without a sysroot zone-info file is substituted by
`America/New_York` is false. -/
theorem configureTimezoneTask_missing_zoneinfo_counterexample :
    tzEnvMissingZoneinfo.zoneinfoFiles.contains "Asia/Ulaanbaatar" = false ∧
      configureTimezoneTaskRun tzEnvMissingZoneinfo ⟨some "Asia/Ulaanbaatar", true⟩ =
        Except.ok ⟨"Asia/Ulaanbaatar", none, some "UTC", false, true⟩ := by
  exact ⟨rfl, rfl⟩

/-- C9 (amended): for every requested identifier that is not a recognized
timezone identifier (absent, empty, or unknown to the running system),
`ConfigureTimezoneTask.run` substitutes the fixed fallback zone
`America/New_York` instead of failing, and — when the fallback zone-info
file exists under the sysroot and the symlink call succeeds —
`/etc/localtime` becomes the relative symlink
`../usr/share/zoneinfo/America/New_York`. -/
theorem configureTimezoneTask_fallback (env : TZEnv) (tz : Option String) (u : Bool)
    (hinv : invalidTimezone env tz = true)
    (hfb : env.zoneinfoFiles.contains fallbackZone = true)
    (hsl : env.symlinkFails = false) (ha : env.adjtimeWriteFails = false) :
    ∃ r, configureTimezoneTaskRun env ⟨tz, u⟩ = Except.ok r ∧
      r.resolvedZone = fallbackZone ∧
      r.localtimeLink = some "../usr/share/zoneinfo/America/New_York" ∧
      r.loggedCorrection = true := by
  have hc : correctTimezone env tz = (fallbackZone, true) := by
    simp [correctTimezone, hinv]
  have hfb2 : fallbackZone ∈ env.zoneinfoFiles := by
    simpa using hfb
  have hlink : configureTimezone env fallbackZone =
      (some ("../usr/share/zoneinfo/" ++ fallbackZone), false) := by
    simp [configureTimezone, hfb2, hsl]
  obtain ⟨last, hadj⟩ : ∃ last, configureAdjtime env u = Except.ok last := by
    unfold configureAdjtime
    cases hs : env.isS390 <;> simp [ha]
  refine ⟨⟨fallbackZone, some ("../usr/share/zoneinfo/" ++ fallbackZone), last, true, false⟩,
    ?_, rfl, rfl, rfl⟩
  simp [configureTimezoneTaskRun, hc, hlink, hadj]

/-- C9 witness input: the test environment of
`test_timezone_task_correction` — full zoneinfo tree, no failures. -/
def tzEnvCorrection : TZEnv :=
  ⟨["America/New_York", "Europe/Prague"], ["America/New_York", "Europe/Prague"],
    false, false, false⟩

/-- C9 (witness): the amended theorem applied to the nonsensical
identifier `BahBlah`, yielding the fallback symlink. -/
theorem configureTimezoneTask_fallback_witness :
    ∃ r, configureTimezoneTaskRun tzEnvCorrection ⟨some "BahBlah", true⟩ = Except.ok r ∧
      r.resolvedZone = fallbackZone ∧
      r.localtimeLink = some "../usr/share/zoneinfo/America/New_York" ∧
      r.loggedCorrection = true :=
  configureTimezoneTask_fallback tzEnvCorrection (some "BahBlah") true
    (by decide) (by decide) rfl rfl

/-- C6: `ConfigureNTPTask.run` completes normally and calls neither
enable-service nor disable-service when the NTP service is not installed
in the sysroot; when it is installed, it enables exactly when
`ntp_enabled` is true and disables exactly when it is false — never
both. -/
theorem configureNTPTask_service_calls (env : NTPEnv) (inp : NTPInput) :
    ∃ r, configureNTPTaskRun env inp = Except.ok r ∧
      (env.serviceInstalled = false →
        r.enableCalled = false ∧ r.disableCalled = false) ∧
      (env.serviceInstalled = true →
        r.enableCalled = inp.ntpEnabled ∧ r.disableCalled = !inp.ntpEnabled ∧
          ¬(r.enableCalled = true ∧ r.disableCalled = true)) := by
  have key : ∃ r, configureNTPTaskRun env inp = Except.ok r ∧
      r.enableCalled = (env.serviceInstalled && inp.ntpEnabled) ∧
      r.disableCalled = (env.serviceInstalled && !inp.ntpEnabled) := by
    unfold configureNTPTaskRun
    by_cases h1 : (inp.ntpEnabled && !inp.ntpServers.isEmpty) = true
    · by_cases h2 : env.saveFails = true
      · exact ⟨⟨env.serviceInstalled && inp.ntpEnabled,
          env.serviceInstalled && !inp.ntpEnabled, none, true⟩,
          by simp [h1, h2], rfl, rfl⟩
      · exact ⟨⟨env.serviceInstalled && inp.ntpEnabled,
          env.serviceInstalled && !inp.ntpEnabled,
          some (inp.ntpServers.map renderTimeSource), false⟩,
          by simp [h1, h2], rfl, rfl⟩
    · exact ⟨⟨env.serviceInstalled && inp.ntpEnabled,
        env.serviceInstalled && !inp.ntpEnabled, none, false⟩,
        by simp [h1], rfl, rfl⟩
  obtain ⟨r, hr, he, hd⟩ := key
  refine ⟨r, hr, ?_, ?_⟩
  · intro hni
    rw [he, hd, hni]
    exact ⟨rfl, rfl⟩
  · intro hi
    rw [he, hd, hi]
    refine ⟨by simp, by simp, ?_⟩
    rintro ⟨h1, h2⟩
    simp at h1 h2
    rw [h1] at h2
    cases h2

/-- C6 (witness): with the service installed and NTP enabled, the task
completes and exactly the enable call is made. -/
theorem configureNTPTask_service_calls_witness :
    ∃ r, configureNTPTaskRun ⟨true, false⟩ ⟨true, []⟩ = Except.ok r ∧
      r.enableCalled = true ∧ r.disableCalled = false := by
  obtain ⟨r, hr, -, hi⟩ := configureNTPTask_service_calls ⟨true, false⟩ ⟨true, []⟩
  obtain ⟨h1, h2, -⟩ := hi rfl
  exact ⟨r, hr, h1, h2⟩

/-- C8: `ConfigureNTPTask.run` never propagates a configuration-write
failure: it always returns normally, and when the writer fails (with NTP
enabled and at least one source, so the write is attempted) the failure
is logged as a warning and no configuration is recorded — asymmetric
with the timezone task, whose adjtime failure raises. -/
theorem configureNTPTask_save_failure_nonfatal (env : NTPEnv) (inp : NTPInput) :
    ∃ r, configureNTPTaskRun env inp = Except.ok r ∧
      (env.saveFails = true → inp.ntpEnabled = true → inp.ntpServers.isEmpty = false →
        r.loggedWarning = true ∧ r.configWritten = none) := by
  unfold configureNTPTaskRun
  by_cases h1 : (inp.ntpEnabled && !inp.ntpServers.isEmpty) = true
  · by_cases h2 : env.saveFails = true
    · refine ⟨⟨env.serviceInstalled && inp.ntpEnabled,
        env.serviceInstalled && !inp.ntpEnabled, none, true⟩,
        by simp [h1, h2], fun _ _ _ => ⟨rfl, rfl⟩⟩
    · refine ⟨⟨env.serviceInstalled && inp.ntpEnabled,
        env.serviceInstalled && !inp.ntpEnabled,
        some (inp.ntpServers.map renderTimeSource), false⟩,
        by simp [h1, h2], fun hs _ _ => absurd hs h2⟩
  · refine ⟨⟨env.serviceInstalled && inp.ntpEnabled,
      env.serviceInstalled && !inp.ntpEnabled, none, false⟩,
      by simp [h1], fun _ he hne => ?_⟩
    rw [he, hne] at h1
    simp at h1

/-- C8 (witness): with the writer failing, NTP enabled and one source,
the task still returns normally, logging a warning and writing
nothing. -/
theorem configureNTPTask_save_failure_nonfatal_witness :
    ∃ r, configureNTPTaskRun ⟨false, true⟩
        ⟨true, [⟨false, "unique.ntp.server", ["iburst"]⟩]⟩ = Except.ok r ∧
      r.loggedWarning = true ∧ r.configWritten = none := by
  obtain ⟨r, hr, h⟩ := configureNTPTask_save_failure_nonfatal ⟨false, true⟩
    ⟨true, [⟨false, "unique.ntp.server", ["iburst"]⟩]⟩
  exact ⟨r, hr, h rfl rfl rfl⟩
